import Mathlib

/-!
Verification of the grammy-fsm session synchronization subsystem.

The TypeScript source is shallowly embedded: JavaScript objects holding
flow data become insertion-ordered association lists, the asynchronous
storage backends become pure state-passing functions that also return
the trace of calls they issue to the underlying store, and the Grammy
middleware of `plugin.ts` becomes a function from a loaded session and a
downstream handler to the final backend state plus its call trace.
-/

namespace GrammyFSM

/-- Model of an arbitrary JavaScript value stored in a session data
mapping (the source types these as `any`; a flat value universe
suffices for the properties verified here). -/
inductive Value where
  | vstr (s : String)
  | vnum (n : Int)
  | vbool (b : Bool)
  | vnull
deriving DecidableEq, Repr

/-- A `Record<string, any>` of flow data: an insertion-ordered list of
key/value pairs, keys unique in any mapping built by the operations
below (JavaScript object semantics). -/
abbrev Fields := List (String × Value)

/-- Property read `data[key]`: the value at the first occurrence of the
key, if any. -/
def getField : Fields → String → Option Value
  | [], _ => none
  | (k', v') :: rest, k => if k' = k then some v' else getField rest k

/-- Property write `data[key] = value`: replaces the value in place when
the key is present (JavaScript keeps the original insertion position),
otherwise appends the key. -/
def setField : Fields → String → Value → Fields
  | [], k, v => [(k, v)]
  | (k', v') :: rest, k, v =>
    if k' = k then (k, v) :: rest else (k', v') :: setField rest k v

/-- Object spread `{...a, ...b}`: every key of `b` written on top of
`a`, so keys of `b` take precedence and keep `a`'s insertion position
when already present. -/
def mergeFields (a b : Fields) : Fields :=
  b.foldl (fun acc kv => setField acc kv.1 kv.2) a

theorem getField_setField_self (fs : Fields) (k : String) (v : Value) :
    getField (setField fs k v) k = some v := by
  induction fs with
  | nil => simp [setField, getField]
  | cons p rest ih =>
    rcases p with ⟨k', v'⟩
    by_cases h : k' = k
    · simp [setField, getField, h]
    · simp [setField, getField, h, ih]

theorem getField_setField_ne (fs : Fields) (k k'' : String) (v : Value)
    (h : k'' ≠ k) : getField (setField fs k v) k'' = getField fs k'' := by
  have hks : ¬ k = k'' := fun hc => h hc.symm
  induction fs with
  | nil => simp [setField, getField, hks]
  | cons p rest ih =>
    rcases p with ⟨k', v'⟩
    by_cases hk : k' = k
    · subst hk
      simp [setField, getField, hks]
    · by_cases hk2 : k' = k''
      · subst hk2
        simp [setField, getField, hk]
      · simp [setField, getField, hk, hk2, ih]

theorem getField_eq_none_of_not_mem (fs : Fields) (k : String)
    (h : k ∉ fs.map Prod.fst) : getField fs k = none := by
  induction fs with
  | nil => simp [getField]
  | cons p rest ih =>
    rcases p with ⟨k', v'⟩
    simp only [List.map_cons, List.mem_cons] at h
    push_neg at h
    have hk : ¬ k' = k := fun hc => h.1 hc.symm
    simp [getField, hk, ih h.2]

theorem getField_mergeFields (b a : Fields) (k : String)
    (hnd : (b.map Prod.fst).Nodup) :
    getField (mergeFields a b) k =
      match getField b k with
      | some v => some v
      | none => getField a k := by
  induction b generalizing a with
  | nil => simp [mergeFields, getField]
  | cons p rest ih =>
    rcases p with ⟨k1, v1⟩
    simp only [List.map_cons, List.nodup_cons] at hnd
    have hstep : mergeFields a ((k1, v1) :: rest) =
        mergeFields (setField a k1 v1) rest := rfl
    rw [hstep, ih (setField a k1 v1) hnd.2]
    by_cases h : k1 = k
    · subst h
      have hrest : getField rest k1 = none :=
        getField_eq_none_of_not_mem rest k1 hnd.1
      simp [getField, hrest, getField_setField_self]
    · have hne : k ≠ k1 := fun hc => h hc.symm
      simp [getField, h, getField_setField_ne a k1 k v1 hne]

/-! ### Session facade (`src/context.ts` and the namespace form of `src/index.ts`)

Facade mutations are pure functions of the in-memory session record.
Each returns the updated record together with the list of transition
callback invocations it performs, each invocation carrying the
`(oldState, newState)` pair; the `cb` flag models whether an
`onStateChange` callback is configured (the source guards every
invocation with `onStateChange && ...`). -/

/-- The in-memory `FSMSessionData` record of `types.ts`: `state` is
`string | null`, `data` a mapping. -/
structure FSMSessionData where
  state : Option String
  data : Fields
deriving DecidableEq, Repr

/-- A transition callback invocation: the `(oldState, newState)` pair. -/
abbrev Transition := Option String × Option String

/-- The `set(state)` method of `createStateNamespace` in `index.ts`:
stores the new state and fires the callback when the value changed. -/
def stateNsSet (cb : Bool) (s : FSMSessionData) (state : String) :
    FSMSessionData × List Transition :=
  let oldState := s.state
  ({ s with state := some state },
   if cb = true ∧ oldState ≠ some state then [(oldState, some state)] else [])

/-- The `clear()` method of `createStateNamespace` in `index.ts`: sets
state to null and fires the callback when it was previously non-null. -/
def stateNsClear (cb : Bool) (s : FSMSessionData) :
    FSMSessionData × List Transition :=
  let oldState := s.state
  ({ s with state := none },
   if cb = true ∧ oldState ≠ none then [(oldState, none)] else [])

/-- The `setState(state)` method of `createFSMContext` in `context.ts`
(same body as the `set state` property setter restricted to strings). -/
def fsmSetState (cb : Bool) (s : FSMSessionData) (state : String) :
    FSMSessionData × List Transition :=
  let oldState := s.state
  ({ s with state := some state },
   if cb = true ∧ oldState ≠ some state then [(oldState, some state)] else [])

/-- The `set state(value)` property setter of `createFSMContext` in
`context.ts`, accepting `string | null`. -/
def fsmStateSetter (cb : Bool) (s : FSMSessionData) (value : Option String) :
    FSMSessionData × List Transition :=
  let oldState := s.state
  ({ s with state := value },
   if cb = true ∧ oldState ≠ value then [(oldState, value)] else [])

/-- The `clear()` method of `createFSMContext` in `context.ts` (also the
`fsm.clear()` of `index.ts`): nulls the state, empties the data, and
fires the callback when the state was previously non-null. -/
def fsmClearAll (cb : Bool) (s : FSMSessionData) :
    FSMSessionData × List Transition :=
  let oldState := s.state
  (⟨none, []⟩,
   if cb = true ∧ oldState ≠ none then [(oldState, none)] else [])

/-- Shape of a JavaScript value assigned through the `ctx.state = ...`
convenience setter of `addFSMToContext` in `index.ts`: a string,
null/undefined, or anything else. -/
inductive JSValue where
  | str (s : String)
  | nullOrUndef
  | other
deriving DecidableEq, Repr

/-- The `ctx.state` property setter installed by `addFSMToContext` in
`index.ts`: null/undefined clears, a string sets, and any other value
falls through both branches, so nothing happens and nothing is thrown. -/
def ctxStateAssign (cb : Bool) (s : FSMSessionData) (value : JSValue) :
    FSMSessionData × List Transition :=
  match value with
  | .nullOrUndef => stateNsClear cb s
  | .str v => stateNsSet cb s v
  | .other => (s, [])

/-! ### Data surface Proxy (`createDataNamespace` in `src/index.ts`) -/

/-- The string-keyed own properties of the Proxy target object — the
reserved method names of the data surface. -/
def reservedNames : List String :=
  ["set", "get", "setAll", "getAll", "update", "delete", "clear", "toJSON"]

/-- The string-keyed members the Proxy target inherits from
Object.prototype. The JavaScript `in` operator used by the traps walks
the prototype chain, so `prop in target` also holds on these. -/
def objectProtoNames : List String :=
  ["constructor", "hasOwnProperty", "isPrototypeOf", "propertyIsEnumerable",
   "toLocaleString", "toString", "valueOf", "__proto__",
   "__defineGetter__", "__defineSetter__", "__lookupGetter__",
   "__lookupSetter__"]

/-- The string properties on which `prop in target` holds: the
target's own method names together with the inherited
Object.prototype names. -/
def inTargetNames : List String :=
  reservedNames ++ objectProtoNames

/-- Outcome of the Proxy `get` trap: the member reached through the
target (an own method of the given name, or an inherited
Object.prototype member), a data field value, or undefined. -/
inductive ProxyRead where
  | method (name : String)
  | value (v : Value)
  | absent
deriving DecidableEq, Repr

/-- The Proxy `get` trap: a name with `prop in target` resolves through
the target (own method or inherited member); any other string property
reads the data mapping. -/
def dataProxyGet (fields : Fields) (prop : String) : ProxyRead :=
  if prop ∈ inTargetNames then .method prop
  else
    match getField fields prop with
    | some v => .value v
    | none => .absent

/-- The Proxy `set` trap: a name with `prop in target` is rejected —
the trap returns false without mutating either the target or the data,
which the source relies on to make the assignment fail silently rather
than raise — and any other name writes the data mapping and returns
true. -/
def dataProxySet (fields : Fields) (prop : String) (value : Value) :
    Bool × Fields :=
  if prop ∈ inTargetNames then (false, fields)
  else (true, setField fields prop value)

/-- The explicit `set(key, value)` method of the data namespace: writes
the data mapping unconditionally, reserved name or not. -/
def dataNsSet (fields : Fields) (key : String) (value : Value) : Fields :=
  setField fields key value

/-- The `update(data)` method of the data namespace:
`sessionData.data = { ...sessionData.data, ...data }`. -/
def dataNsUpdate (fields : Fields) (patch : Fields) : Fields :=
  mergeFields fields patch

/-! ### In-memory backend (`src/storage/memory.ts`) -/

/-- The per-user record of `MemoryStorage` (`StorageData` in
`memory.ts`). -/
structure StorageData where
  state : Option String
  data : Fields
deriving DecidableEq, Repr

/-- The `Map<number, StorageData>` held by `MemoryStorage`. -/
abbrev MemStore := List (Int × StorageData)

/-- `Map.get`: the record stored under a user id, if any. -/
def memFind : MemStore → Int → Option StorageData
  | [], _ => none
  | (k, r) :: rest, uid => if k = uid then some r else memFind rest uid

/-- `Map.set`: replaces the record under the key in place, or appends. -/
def memInsert : MemStore → Int → StorageData → MemStore
  | [], uid, r => [(uid, r)]
  | (k, r') :: rest, uid, r =>
    if k = uid then (uid, r) :: rest else (k, r') :: memInsert rest uid r

/-- `Map.delete`: removes the record under the key. -/
def memRemove : MemStore → Int → MemStore
  | [], _ => []
  | (k, r') :: rest, uid =>
    if k = uid then rest else (k, r') :: memRemove rest uid

/-- `MemoryStorage.setState`: fetch the current record (defaulting to
`state: null, data: empty`), overwrite its state, store it back. -/
def memSetState (s : MemStore) (uid : Int) (state : String) : MemStore :=
  let current := (memFind s uid).getD ⟨none, []⟩
  memInsert s uid { current with state := some state }

/-- `MemoryStorage.getState`: `this.storage.get(userId)?.state ?? null`. -/
def memGetState (s : MemStore) (uid : Int) : Option String :=
  (memFind s uid).bind StorageData.state

/-- `MemoryStorage.setData`: fetch-or-default, overwrite data, store. -/
def memSetData (s : MemStore) (uid : Int) (data : Fields) : MemStore :=
  let current := (memFind s uid).getD ⟨none, []⟩
  memInsert s uid { current with data := data }

/-- `MemoryStorage.getData`: returns the stored mapping only when it
exists and has at least one key, else null. -/
def memGetData (s : MemStore) (uid : Int) : Option Fields :=
  match memFind s uid with
  | none => none
  | some r => if 0 < r.data.length then some r.data else none

/-- `MemoryStorage.updateData`: fetch-or-default, spread the patch on
top of the current data, store. -/
def memUpdateData (s : MemStore) (uid : Int) (patch : Fields) : MemStore :=
  let current := (memFind s uid).getD ⟨none, []⟩
  memInsert s uid { current with data := mergeFields current.data patch }

/-- `MemoryStorage.clear`: `this.storage.delete(userId)`. -/
def memClear (s : MemStore) (uid : Int) : MemStore :=
  memRemove s uid

theorem memFind_memInsert_self (s : MemStore) (uid : Int) (r : StorageData) :
    memFind (memInsert s uid r) uid = some r := by
  induction s with
  | nil => simp [memInsert, memFind]
  | cons p rest ih =>
    rcases p with ⟨k, r'⟩
    by_cases h : k = uid
    · simp [memInsert, memFind, h]
    · simp [memInsert, memFind, h, ih]

/-! ### Lifecycle middleware (`createFSM` in `src/plugin.ts`)

The middleware works against the `FSMStorage` interface of `types.ts`;
we model an arbitrary backend as a record of pure state transformers
over a backend state type, and have the middleware also emit the trace
of backend calls it makes, in order. -/

/-- The `FSMStorage` capability set used by the middleware, as pure
functions over a backend state `σ`. -/
structure Backend (σ : Type) where
  getState : σ → Int → Option String
  getData : σ → Int → Option Fields
  setState : σ → Int → String → σ
  setData : σ → Int → Fields → σ
  clear : σ → Int → σ

/-- One backend call made by the middleware, in trace order. -/
inductive BackendCall where
  | getStateC (uid : Int)
  | getDataC (uid : Int)
  | setStateC (uid : Int) (state : String)
  | setDataC (uid : Int) (data : Fields)
  | clearC (uid : Int)
deriving DecidableEq, Repr

/-- One run of the middleware returned by `createFSM`, for one unit of
work: resolve the user id (skipping everything when absent or falsy),
load state and data, hand the session to the downstream handler
(modelled as an arbitrary function on the session record, since every
facade operation is such a function), then flush: non-null final state
persists state then data; a state that went null since load clears the
backend; otherwise no write. Returns the final backend state and the
full trace of backend calls. -/
def runFSM {σ : Type} (B : Backend σ) (s : σ) (uid? : Option Int)
    (handler : FSMSessionData → FSMSessionData) : σ × List BackendCall :=
  match uid? with
  | none => (s, [])
  | some userId =>
    if userId = 0 then (s, [])
    else
      let state := B.getState s userId
      let data := B.getData s userId
      let sessionData : FSMSessionData := ⟨state, data.getD []⟩
      let final := handler sessionData
      match final.state with
      | some st =>
        (B.setData (B.setState s userId st) userId final.data,
         [.getStateC userId, .getDataC userId,
          .setStateC userId st, .setDataC userId final.data])
      | none =>
        match state with
        | some _ =>
          (B.clear s userId, [.getStateC userId, .getDataC userId, .clearC userId])
        | none => (s, [.getStateC userId, .getDataC userId])

/-- The in-memory backend packaged for the middleware. -/
def memoryBackend : Backend MemStore :=
  ⟨memGetState, memGetData, memSetState, memSetData, memClear⟩

/-- Classifies backend calls that mutate the store (writes and clears),
as opposed to the load-phase reads. -/
def BackendCall.isWrite : BackendCall → Bool
  | .getStateC _ => false
  | .getDataC _ => false
  | .setStateC _ _ => true
  | .setDataC _ _ => true
  | .clearC _ => true

/-! ### External TTL-capable backend (`src/storage/redis.ts`)

The key-value client stores strings. We model a stored string by the
outcome of the decode attempt `Object.keys(JSON.parse(data))` the
source applies to it in `getData`:

- `encoded m` — the `JSON.stringify` serialization of a mapping `m`
  (what `setData` writes); it parses back to that object mapping.
- `jsonNonObj s props` — text `s` that is valid JSON of a non-object
  value (a JSON string, array, number or boolean); `props` is the
  enumerable own-property view of the parsed value as `Object.keys`
  and object spread see it (index keys for strings and arrays, empty
  for numbers and booleans).
- `plain s` — text on which the decode attempt throws: invalid JSON
  (this covers the bare state strings `setState` writes), or JSON
  `null`, on which the subsequent `Object.keys` throws. -/

/-- A value held by the external key-value client, classified by its
decode outcome. -/
inductive RVal where
  | plain (s : String)
  | jsonNonObj (s : String) (props : Fields)
  | encoded (m : Fields)
deriving DecidableEq, Repr

/-- Modelled `JSON.stringify` of a fields mapping. -/
def stringifyFields (m : Fields) : RVal :=
  .encoded m

/-- Outcome of `Object.keys(JSON.parse(data))` on a stored blob: an
object mapping, a non-object value with its enumerable own-property
view, or a raised error (caught by the source). -/
inductive ParseOutcome where
  | obj (m : Fields)
  | nonObj (s : String) (props : Fields)
  | raises
deriving DecidableEq, Repr

/-- Modelled decode attempt on a stored blob. -/
def parseAttempt : RVal → ParseOutcome
  | .encoded m => .obj m
  | .jsonNonObj s props => .nonObj s props
  | .plain _ => .raises

/-- Rendering of a stored blob as the raw text the client would return;
for a serialized mapping we render its representation (the concrete
serialized text is never inspected by the source, only re-parsed). -/
def RVal.text : RVal → String
  | .plain s => s
  | .jsonNonObj s _ => s
  | .encoded m => reprStr m

/-- What `getData` hands back on success: null, a stored mapping, or —
because the result of `JSON.parse` is untyped — a parsed non-object
value leaked to the caller despite the declared
`Record<string, any> | null` return type. -/
inductive DataRead where
  | noData
  | mapping (m : Fields)
  | nonMapping (s : String) (props : Fields)
deriving DecidableEq, Repr

/-- The mapping that `(await this.getData(userId)) ?? {}` followed by
object spread sees in a `getData` result: null becomes empty, a
mapping is itself, and a leaked non-object value contributes its
enumerable own properties. -/
def DataRead.spreadView : DataRead → Fields
  | .noData => []
  | .mapping m => m
  | .nonMapping _ props => props

/-- The key space of the external client. -/
abbrev RedisKV := List (String × RVal)

/-- Client-side read of a key. -/
def kvGet : RedisKV → String → Option RVal
  | [], _ => none
  | (k, v) :: rest, key => if k = key then some v else kvGet rest key

/-- Client-side write of a key (both `set` and `setex` store the value;
expiry is not modelled as passing time, only as which call was made). -/
def kvSet : RedisKV → String → RVal → RedisKV
  | [], key, v => [(key, v)]
  | (k, v') :: rest, key, v =>
    if k = key then (key, v) :: rest else (k, v') :: kvSet rest key v

/-- Client-side deletion of a key. -/
def kvDel : RedisKV → String → RedisKV
  | [], _ => []
  | (k, v') :: rest, key =>
    if k = key then rest else (k, v') :: kvDel rest key

/-- One call issued to the underlying key-value client, in trace order. -/
inductive RedisCall where
  | get (key : String)
  | set (key : String) (value : RVal)
  | setex (key : String) (seconds : Nat) (value : RVal)
  | del (keys : List String)
deriving DecidableEq, Repr

/-- A host-supplied user id as the external backend sees it: a
JavaScript number, carried with whether `Number.isInteger` holds of it
(non-integer numbers are invalid regardless of magnitude, so their
integer part is irrelevant to every property proved here). -/
structure UserId where
  isInt : Bool
  val : Int
deriving DecidableEq, Repr

/-- Errors raised by the external backend. -/
inductive StorageErr where
  | invalidUserId (uid : UserId)
deriving DecidableEq, Repr

instance instDecEqExcept {ε α : Type} [DecidableEq ε] [DecidableEq α] :
    DecidableEq (Except ε α) := fun a b =>
  match a, b with
  | .ok x, .ok y =>
    if h : x = y then .isTrue (by rw [h])
    else .isFalse (fun hc => h (Except.ok.inj hc))
  | .error e, .error f =>
    if h : e = f then .isTrue (by rw [h])
    else .isFalse (fun hc => h (Except.error.inj hc))
  | .ok _, .error _ => .isFalse (fun hc => Except.noConfusion hc)
  | .error _, .ok _ => .isFalse (fun hc => Except.noConfusion hc)

/-- Configuration of `RedisStorage`: the key prefix (source default
`"fsm:"`) and the optional TTL in seconds. -/
structure RedisStorage where
  keyPref : String
  ttl : Option Nat
deriving DecidableEq, Repr

/-- `RedisStorage.sanitizeUserId`: throws unless the id is a positive
integer, else renders it for key building. -/
def RedisStorage.sanitizeUserId (uid : UserId) : Except StorageErr String :=
  if uid.isInt = false ∨ uid.val ≤ 0 then .error (.invalidUserId uid)
  else .ok (toString uid.val)

/-- `RedisStorage.getStateKey`: prefix ++ sanitized id ++ ":state". -/
def RedisStorage.getStateKey (st : RedisStorage) (uid : UserId) :
    Except StorageErr String :=
  (RedisStorage.sanitizeUserId uid).map fun s => st.keyPref ++ s ++ ":state"

/-- `RedisStorage.getDataKey`: prefix ++ sanitized id ++ ":data". -/
def RedisStorage.getDataKey (st : RedisStorage) (uid : UserId) :
    Except StorageErr String :=
  (RedisStorage.sanitizeUserId uid).map fun s => st.keyPref ++ s ++ ":data"

/-- `RedisStorage.setState`: derive the state key, then a single
`setex` carrying the TTL when one is configured and truthy (JavaScript
`if (this.ttl)`, so a zero TTL takes the plain-`set` branch), else a
single plain `set`. Returns the updated client state and call trace, or
the invalid-key error with an empty trace. -/
def RedisStorage.setState (st : RedisStorage) (kv : RedisKV) (uid : UserId)
    (state : String) : Except StorageErr RedisKV × List RedisCall :=
  match st.getStateKey uid with
  | .error e => (.error e, [])
  | .ok key =>
    match st.ttl with
    | some t =>
      if t ≠ 0 then (.ok (kvSet kv key (.plain state)), [.setex key t (.plain state)])
      else (.ok (kvSet kv key (.plain state)), [.set key (.plain state)])
    | none => (.ok (kvSet kv key (.plain state)), [.set key (.plain state)])

/-- `RedisStorage.getState`: one client `get` of the state key. -/
def RedisStorage.getState (st : RedisStorage) (kv : RedisKV) (uid : UserId) :
    Except StorageErr (Option String) × List RedisCall :=
  match st.getStateKey uid with
  | .error e => (.error e, [])
  | .ok key => (.ok ((kvGet kv key).map RVal.text), [.get key])

/-- `RedisStorage.setData`: serialize the mapping, then one `setex`
when a truthy TTL is configured, else one plain `set`. -/
def RedisStorage.setData (st : RedisStorage) (kv : RedisKV) (uid : UserId)
    (data : Fields) : Except StorageErr RedisKV × List RedisCall :=
  match st.getDataKey uid with
  | .error e => (.error e, [])
  | .ok key =>
    let serialized := stringifyFields data
    match st.ttl with
    | some t =>
      if t ≠ 0 then (.ok (kvSet kv key serialized), [.setex key t serialized])
      else (.ok (kvSet kv key serialized), [.set key serialized])
    | none => (.ok (kvSet kv key serialized), [.set key serialized])

/-- `RedisStorage.getData`: one client `get` of the data key; an absent
blob yields null; a blob whose decode attempt throws yields null (the
error is caught, never rethrown); a decoded value — object mapping or
not — is returned whenever `Object.keys` of it is non-empty, and
flattened to null otherwise. -/
def RedisStorage.getData (st : RedisStorage) (kv : RedisKV) (uid : UserId) :
    Except StorageErr DataRead × List RedisCall :=
  match st.getDataKey uid with
  | .error e => (.error e, [])
  | .ok key =>
    match kvGet kv key with
    | none => (.ok .noData, [.get key])
    | some d =>
      match parseAttempt d with
      | .raises => (.ok .noData, [.get key])
      | .obj parsed =>
        (.ok (if 0 < parsed.length then .mapping parsed else .noData), [.get key])
      | .nonObj s props =>
        (.ok (if 0 < props.length then .nonMapping s props else .noData), [.get key])

/-- `RedisStorage.updateData`: read the current value through `getData`
(null defaulting to empty), spread the patch on top of its enumerable
properties, write back through `setData`. -/
def RedisStorage.updateData (st : RedisStorage) (kv : RedisKV) (uid : UserId)
    (patch : Fields) : Except StorageErr RedisKV × List RedisCall :=
  match st.getData kv uid with
  | (.error e, calls) => (.error e, calls)
  | (.ok current, calls1) =>
    let updated := mergeFields current.spreadView patch
    match st.setData kv uid updated with
    | (.error e, calls2) => (.error e, calls1 ++ calls2)
    | (.ok kv', calls2) => (.ok kv', calls1 ++ calls2)

/-- `RedisStorage.clear`: derive both sub-keys, then one client `del`
of the pair. -/
def RedisStorage.clear (st : RedisStorage) (kv : RedisKV) (uid : UserId) :
    Except StorageErr RedisKV × List RedisCall :=
  match st.getStateKey uid with
  | .error e => (.error e, [])
  | .ok stateKey =>
    match st.getDataKey uid with
    | .error e => (.error e, [])
    | .ok dataKey =>
      (.ok (kvDel (kvDel kv stateKey) dataKey), [.del [stateKey, dataKey]])

/-- Validity of a user id for the external backend: a positive integer. -/
def validUid (uid : UserId) : Prop :=
  uid.isInt = true ∧ 0 < uid.val

/-- The state sub-key of a valid user id, as a plain string. -/
def stateKeyStr (st : RedisStorage) (uid : UserId) : String :=
  st.keyPref ++ toString uid.val ++ ":state"

/-- The data sub-key of a valid user id, as a plain string. -/
def dataKeyStr (st : RedisStorage) (uid : UserId) : String :=
  st.keyPref ++ toString uid.val ++ ":data"

theorem sanitizeUserId_valid (uid : UserId) (h : validUid uid) :
    RedisStorage.sanitizeUserId uid = .ok (toString uid.val) := by
  rcases h with ⟨h1, h2⟩
  unfold RedisStorage.sanitizeUserId
  rw [if_neg]
  push_neg
  exact ⟨by simp [h1], by omega⟩

theorem sanitizeUserId_invalid (uid : UserId)
    (h : uid.isInt = false ∨ uid.val ≤ 0) :
    RedisStorage.sanitizeUserId uid = .error (.invalidUserId uid) := by
  unfold RedisStorage.sanitizeUserId
  rw [if_pos h]

theorem getStateKey_valid (st : RedisStorage) (uid : UserId) (h : validUid uid) :
    st.getStateKey uid = .ok (stateKeyStr st uid) := by
  unfold RedisStorage.getStateKey
  rw [sanitizeUserId_valid uid h]
  rfl

theorem getDataKey_valid (st : RedisStorage) (uid : UserId) (h : validUid uid) :
    st.getDataKey uid = .ok (dataKeyStr st uid) := by
  unfold RedisStorage.getDataKey
  rw [sanitizeUserId_valid uid h]
  rfl

theorem kvGet_kvSet_self (kv : RedisKV) (key : String) (v : RVal) :
    kvGet (kvSet kv key v) key = some v := by
  induction kv with
  | nil => simp [kvSet, kvGet]
  | cons p rest ih =>
    rcases p with ⟨k, v'⟩
    by_cases h : k = key
    · simp [kvSet, kvGet, h]
    · simp [kvSet, kvGet, h, ih]

theorem helper_getData_encoded (st : RedisStorage) (kv : RedisKV) (u : UserId)
    (hu : validUid u) (m : Fields)
    (hm : kvGet kv (dataKeyStr st u) = some (stringifyFields m)) :
    st.getData kv u =
      (.ok (if 0 < m.length then .mapping m else .noData),
       [.get (dataKeyStr st u)]) := by
  simp only [RedisStorage.getData, getDataKey_valid st u hu, hm,
    stringifyFields, parseAttempt]

theorem helper_getData_absent (st : RedisStorage) (kv : RedisKV) (u : UserId)
    (hu : validUid u) (hm : kvGet kv (dataKeyStr st u) = none) :
    st.getData kv u = (.ok .noData, [.get (dataKeyStr st u)]) := by
  simp only [RedisStorage.getData, getDataKey_valid st u hu, hm]

theorem helper_spread_flatten (m : Fields) :
    (if 0 < m.length then DataRead.mapping m else DataRead.noData).spreadView
      = m := by
  cases m <;> simp [DataRead.spreadView]

theorem helper_setData_writes (st : RedisStorage) (kv : RedisKV) (u : UserId)
    (hu : validUid u) (d : Fields) :
    ∃ calls, st.setData kv u d =
      (.ok (kvSet kv (dataKeyStr st u) (stringifyFields d)), calls) := by
  unfold RedisStorage.setData
  rw [getDataKey_valid st u hu]
  cases st.ttl with
  | none => exact ⟨_, rfl⟩
  | some t =>
    by_cases ht : t ≠ 0
    · refine ⟨[.setex (dataKeyStr st u) t (stringifyFields d)], ?_⟩
      simp [ht]
    · refine ⟨[.set (dataKeyStr st u) (stringifyFields d)], ?_⟩
      simp [ht]

/-- C1: at the end of a unit of work with a resolved user key, the
middleware makes exactly these backend calls after the two load reads:
if the facade's final state is non-absent, `setState` then `setData` in
that order; otherwise, if the state loaded at the start was non-absent,
exactly one `clear`; otherwise no backend write or clear call at all. -/
theorem middleware_flush_calls {σ : Type} (B : Backend σ) (s : σ) (uid : Int)
    (handler : FSMSessionData → FSMSessionData) (huid : uid ≠ 0) :
    (∀ st, (handler ⟨B.getState s uid, (B.getData s uid).getD []⟩).state = some st →
      (runFSM B s (some uid) handler).2 =
        [.getStateC uid, .getDataC uid, .setStateC uid st,
         .setDataC uid (handler ⟨B.getState s uid, (B.getData s uid).getD []⟩).data]) ∧
    ((handler ⟨B.getState s uid, (B.getData s uid).getD []⟩).state = none →
      B.getState s uid ≠ none →
      (runFSM B s (some uid) handler).2 =
        [.getStateC uid, .getDataC uid, .clearC uid]) ∧
    ((handler ⟨B.getState s uid, (B.getData s uid).getD []⟩).state = none →
      B.getState s uid = none →
      (runFSM B s (some uid) handler).2 = [.getStateC uid, .getDataC uid] ∧
      ((runFSM B s (some uid) handler).2.filter BackendCall.isWrite) = []) := by
  refine ⟨?_, ?_, ?_⟩
  · intro st hst
    simp [runFSM, huid, hst]
  · intro hst hprior
    cases hp : B.getState s uid with
    | none => exact absurd hp hprior
    | some p =>
      rw [hp] at hst
      simp [runFSM, huid, hp, hst]
  · intro hst hprior
    rw [hprior] at hst
    constructor
    · simp [runFSM, huid, hprior, hst]
    · simp [runFSM, huid, hprior, hst, BackendCall.isWrite]

theorem middleware_flush_calls_witness :
    (runFSM memoryBackend ([] : MemStore) (some 1)
        (fun sess => ⟨some "awaiting_name", sess.data⟩)).2 =
      [BackendCall.getStateC 1, BackendCall.getDataC 1,
       BackendCall.setStateC 1 "awaiting_name", BackendCall.setDataC 1 []] :=
  (middleware_flush_calls memoryBackend [] 1
      (fun sess => ⟨some "awaiting_name", sess.data⟩) (by decide)).1
    "awaiting_name" rfl

/-- C3: with a transition callback configured, every state mutation
through the facade — namespace set and clear, context setState, the
state property setter, the whole-session clear, and the convenience
assignment — fires the callback exactly once with `(oldState, newState)`
when the value changes, and not at all on a no-op; in particular a
transition from "a" to "b" fires once and re-setting "b" fires nothing. -/
theorem transition_callback_exact (s : FSMSessionData) (v : String)
    (w : Option String) :
    (stateNsSet true s v).2 = (if s.state ≠ some v then [(s.state, some v)] else []) ∧
    (stateNsClear true s).2 = (if s.state ≠ none then [(s.state, none)] else []) ∧
    (fsmSetState true s v).2 = (if s.state ≠ some v then [(s.state, some v)] else []) ∧
    (fsmStateSetter true s w).2 = (if s.state ≠ w then [(s.state, w)] else []) ∧
    (fsmClearAll true s).2 = (if s.state ≠ none then [(s.state, none)] else []) ∧
    (ctxStateAssign true s (.str v)).2 =
      (if s.state ≠ some v then [(s.state, some v)] else []) ∧
    (ctxStateAssign true s .nullOrUndef).2 =
      (if s.state ≠ none then [(s.state, none)] else []) ∧
    (stateNsSet true ⟨some "a", []⟩ "b").2 = [(some "a", some "b")] ∧
    (stateNsSet true (stateNsSet true ⟨some "a", []⟩ "b").1 "b").2 = [] := by
  refine ⟨?_, ?_, ?_, ?_, ?_, ?_, ?_, by decide, by decide⟩ <;>
    simp [stateNsSet, stateNsClear, fsmSetState, fsmStateSetter, fsmClearAll,
      ctxStateAssign]

/-- C9: assigning a value that is neither a string nor null/undefined
through the `ctx.state = ...` convenience setter falls through both
branches of the setter: the session is unchanged, no transition
callback fires, and nothing is thrown (the setter body is total and has
no throw path). -/
theorem invalid_state_assignment_ignored (cb : Bool) (s : FSMSessionData) :
    ctxStateAssign cb s JSValue.other = (s, []) := rfl

/-- C2: for every reserved method name of the data surface, the Proxy
`set` trap rejects a direct field assignment without raising — it
returns false and leaves the fields mapping untouched — the name still
resolves to the method afterwards, while storing a field of that same
name through the explicit `set(key, value)` method succeeds. -/
theorem reserved_name_assignment (name : String) (hname : name ∈ reservedNames)
    (fields : Fields) (v : Value) :
    dataProxySet fields name v = (false, fields) ∧
    dataProxyGet fields name = .method name ∧
    getField (dataNsSet fields name v) name = some v := by
  have hmem : name ∈ inTargetNames := by
    unfold inTargetNames
    exact List.mem_append_left _ hname
  refine ⟨?_, ?_, ?_⟩
  · simp [dataProxySet, hmem]
  · simp [dataProxyGet, hmem]
  · exact getField_setField_self fields name v

theorem reserved_name_assignment_witness :
    dataProxySet [] "set" Value.vnull = (false, []) ∧
    dataProxyGet [] "set" = .method "set" ∧
    getField (dataNsSet [] "set" Value.vnull) "set" = some Value.vnull :=
  reserved_name_assignment "set" (by decide) [] Value.vnull

/-- C4: the claim fails on the code. A stored blob that is valid JSON
but not a mapping — here the JSON text of the string "abc", whose
parse succeeds and whose Object.keys view has three index keys — is
returned by getData to the caller instead of being treated as no data,
contradicting both the claim and the function's declared
Record-or-null return type; only a blob whose decode attempt throws is
flattened to null. No exception escapes in either case. -/
theorem nonmapping_blob_leaked :
    (RedisStorage.getData ⟨"fsm:", none⟩
        [("fsm:1:data", RVal.jsonNonObj "\"abc\""
          [("0", Value.vstr "a"), ("1", Value.vstr "b"), ("2", Value.vstr "c")])]
        ⟨true, 1⟩).1 =
      .ok (.nonMapping "\"abc\""
        [("0", Value.vstr "a"), ("1", Value.vstr "b"), ("2", Value.vstr "c")]) ∧
    (RedisStorage.getData ⟨"fsm:", none⟩
        [("fsm:1:data", RVal.jsonNonObj "\"abc\""
          [("0", Value.vstr "a"), ("1", Value.vstr "b"), ("2", Value.vstr "c")])]
        ⟨true, 1⟩).1 ≠ .ok .noData ∧
    (RedisStorage.getData ⟨"fsm:", none⟩
        [("fsm:1:data", RVal.plain "not json")] ⟨true, 1⟩).1 = .ok .noData := by
  decide

/-- C5: on both backends, `getData` returns none exactly when no
mapping is stored for the key or the stored mapping is empty, and
returns the stored mapping otherwise: an empty mapping and nothing
stored are indistinguishable on read. -/
theorem getData_none_iff_empty (s : MemStore) (uid : Int)
    (st : RedisStorage) (kv : RedisKV) (u : UserId) (hu : validUid u) :
    (memGetData s uid = none ↔
      memFind s uid = none ∨ ∃ t, memFind s uid = some ⟨t, []⟩) ∧
    (∀ r, memFind s uid = some r → r.data ≠ [] →
      memGetData s uid = some r.data) ∧
    (kvGet kv (dataKeyStr st u) = none → (st.getData kv u).1 = .ok .noData) ∧
    (∀ m, kvGet kv (dataKeyStr st u) = some (stringifyFields m) →
      (((st.getData kv u).1 = .ok .noData) ↔ m = []) ∧
      (m ≠ [] → (st.getData kv u).1 = .ok (.mapping m))) := by
  refine ⟨?_, ?_, ?_, ?_⟩
  · cases hfind : memFind s uid with
    | none => simp [memGetData, hfind]
    | some r =>
      rcases r with ⟨rs, rd⟩
      cases rd with
      | nil => simp [memGetData, hfind]
      | cons p tl => simp [memGetData, hfind]
  · intro r hfind hne
    simp [memGetData, hfind, List.length_pos, hne]
  · intro habs
    rw [helper_getData_absent st kv u hu habs]
  · intro m hm
    rw [helper_getData_encoded st kv u hu m hm]
    cases m with
    | nil => simp
    | cons p tl => simp

theorem getData_none_iff_empty_witness :
    memGetData [((5 : Int), ⟨some "x", []⟩)] 5 = none ∧
    (RedisStorage.getData ⟨"fsm:", none⟩
        [("fsm:1:data", RVal.encoded [("a", Value.vnum 1)])] ⟨true, 1⟩).1 =
      .ok (.mapping [("a", Value.vnum 1)]) := by
  have h := getData_none_iff_empty [((5 : Int), ⟨some "x", []⟩)] 5
    ⟨"fsm:", none⟩ [("fsm:1:data", RVal.encoded [("a", Value.vnum 1)])]
    ⟨true, 1⟩ ⟨rfl, by decide⟩
  refine ⟨h.1.mpr (Or.inr ⟨some "x", by decide⟩), ?_⟩
  exact (h.2.2.2 [("a", Value.vnum 1)] (by decide)).2 (by decide)

/-- C6: `updateData` on both backends stores exactly the shallow merge
of the currently stored mapping (empty if none is stored) with the
patch, the patch winning on key conflicts; in particular updating with
a maps-to 1 and then with a maps-to 2, b maps-to 3 leaves a maps-to 2,
b maps-to 3 stored. -/
theorem updateData_shallow_merge (s : MemStore) (uid : Int) (patch : Fields)
    (st : RedisStorage) (kv : RedisKV) (u : UserId) (hu : validUid u)
    (m : Fields)
    (hm : kvGet kv (dataKeyStr st u) = some (stringifyFields m) ∨
      (kvGet kv (dataKeyStr st u) = none ∧ m = [])) :
    (memFind (memUpdateData s uid patch) uid =
      some ⟨((memFind s uid).getD ⟨none, []⟩).state,
        mergeFields ((memFind s uid).getD ⟨none, []⟩).data patch⟩) ∧
    (∃ kv1, (st.updateData kv u patch).1 = .ok kv1 ∧
      kvGet kv1 (dataKeyStr st u) =
        some (stringifyFields (mergeFields m patch))) ∧
    ((patch.map Prod.fst).Nodup → ∀ k,
      getField (mergeFields m patch) k =
        match getField patch k with
        | some v => some v
        | none => getField m k) ∧
    (memFind (memUpdateData (memUpdateData [] uid [("a", Value.vnum 1)]) uid
        [("a", Value.vnum 2), ("b", Value.vnum 3)]) uid =
      some ⟨none, [("a", Value.vnum 2), ("b", Value.vnum 3)]⟩) := by
  refine ⟨?_, ?_, ?_, ?_⟩
  · simp [memUpdateData, memFind_memInsert_self]
  · obtain ⟨calls2, hsd⟩ := helper_setData_writes st kv u hu (mergeFields m patch)
    refine ⟨kvSet kv (dataKeyStr st u) (stringifyFields (mergeFields m patch)),
      ?_, kvGet_kvSet_self kv (dataKeyStr st u) _⟩
    rcases hm with henc | ⟨habs, hm0⟩
    · have hgd := helper_getData_encoded st kv u hu m henc
      simp only [RedisStorage.updateData, hgd, helper_spread_flatten, hsd]
    · subst hm0
      have hgd := helper_getData_absent st kv u hu habs
      simp only [RedisStorage.updateData, hgd, DataRead.spreadView, hsd]
  · intro hnd k
    exact getField_mergeFields patch m k hnd
  · simp [memUpdateData, memFind, memInsert, mergeFields, setField]

theorem updateData_shallow_merge_witness :
    memFind (memUpdateData (memUpdateData [] 7 [("a", Value.vnum 1)]) 7
        [("a", Value.vnum 2), ("b", Value.vnum 3)]) 7 =
      some ⟨none, [("a", Value.vnum 2), ("b", Value.vnum 3)]⟩ :=
  (updateData_shallow_merge [] 7 [("a", Value.vnum 1)] ⟨"fsm:", none⟩ []
    ⟨true, 1⟩ ⟨rfl, by decide⟩ [] (Or.inr ⟨rfl, rfl⟩)).2.2.2

/-- C7: every operation of the external backend presented with a user
id that is not a positive integer raises the invalid-key error at
key-derivation time, with an empty client call trace — the store is
never touched with an invalid key. -/
theorem invalid_uid_fails_fast (st : RedisStorage) (kv : RedisKV)
    (uid : UserId) (state : String) (d patch : Fields)
    (h : uid.isInt = false ∨ uid.val ≤ 0) :
    st.setState kv uid state = (.error (.invalidUserId uid), []) ∧
    st.getState kv uid = (.error (.invalidUserId uid), []) ∧
    st.setData kv uid d = (.error (.invalidUserId uid), []) ∧
    st.getData kv uid = (.error (.invalidUserId uid), []) ∧
    st.updateData kv uid patch = (.error (.invalidUserId uid), []) ∧
    st.clear kv uid = (.error (.invalidUserId uid), []) := by
  have hk : RedisStorage.sanitizeUserId uid = .error (.invalidUserId uid) :=
    sanitizeUserId_invalid uid h
  have hs : st.getStateKey uid = .error (.invalidUserId uid) := by
    unfold RedisStorage.getStateKey
    rw [hk]
    rfl
  have hd : st.getDataKey uid = .error (.invalidUserId uid) := by
    unfold RedisStorage.getDataKey
    rw [hk]
    rfl
  refine ⟨?_, ?_, ?_, ?_, ?_, ?_⟩ <;>
    simp [RedisStorage.setState, RedisStorage.getState, RedisStorage.setData,
      RedisStorage.getData, RedisStorage.updateData, RedisStorage.clear, hs, hd]

theorem invalid_uid_fails_fast_witness :
    RedisStorage.setState ⟨"fsm:", none⟩ [] ⟨true, -3⟩ "s" =
      (.error (.invalidUserId ⟨true, -3⟩), []) :=
  (invalid_uid_fails_fast ⟨"fsm:", none⟩ [] ⟨true, -3⟩ "s" [] []
    (Or.inr (by decide))).1

/-- C8 counterexample: with a time-to-live of zero seconds configured,
`setState` and `setData` issue a plain `set` with no expiry, not a
set-with-expiry carrying that TTL, refuting the claim as stated at this
input. -/
theorem ttl_zero_plain_set :
    (RedisStorage.setState ⟨"fsm:", some 0⟩ [] ⟨true, 1⟩ "s").2 =
      [RedisCall.set "fsm:1:state" (RVal.plain "s")] ∧
    (RedisStorage.setState ⟨"fsm:", some 0⟩ [] ⟨true, 1⟩ "s").2 ≠
      [RedisCall.setex "fsm:1:state" 0 (RVal.plain "s")] ∧
    (RedisStorage.setData ⟨"fsm:", some 0⟩ [] ⟨true, 1⟩ []).2 =
      [RedisCall.set "fsm:1:data" (stringifyFields [])] := by
  decide

/-- C8 amended: when a nonzero time-to-live is configured, every
`setState` and every `setData` write is a single set-with-expiry
operation carrying that TTL on the corresponding derived sub-key; when
no TTL is configured, or the configured TTL is zero (falsy in the
source's truthiness check), the write is a single plain set. -/
theorem ttl_write_policy (st : RedisStorage) (kv : RedisKV) (u : UserId)
    (hu : validUid u) (state : String) (d : Fields) (t : Nat) :
    (st.ttl = some t → t ≠ 0 →
      (st.setState kv u state).2 = [.setex (stateKeyStr st u) t (.plain state)] ∧
      (st.setData kv u d).2 = [.setex (dataKeyStr st u) t (stringifyFields d)]) ∧
    ((st.ttl = none ∨ st.ttl = some 0) →
      (st.setState kv u state).2 = [.set (stateKeyStr st u) (.plain state)] ∧
      (st.setData kv u d).2 = [.set (dataKeyStr st u) (stringifyFields d)]) := by
  constructor
  · intro httl ht
    constructor
    · simp [RedisStorage.setState, getStateKey_valid st u hu, httl, ht]
    · simp [RedisStorage.setData, getDataKey_valid st u hu, httl, ht]
  · intro httl
    rcases httl with httl | httl <;> constructor <;>
      simp [RedisStorage.setState, RedisStorage.setData,
        getStateKey_valid st u hu, getDataKey_valid st u hu, httl]

theorem ttl_write_policy_witness :
    (RedisStorage.setState ⟨"fsm:", some 60⟩ [] ⟨true, 1⟩ "s").2 =
      [RedisCall.setex "fsm:1:state" 60 (RVal.plain "s")] ∧
    (RedisStorage.setData ⟨"fsm:", some 60⟩ [] ⟨true, 1⟩ []).2 =
      [RedisCall.setex "fsm:1:data" 60 (stringifyFields [])] :=
  (ttl_write_policy ⟨"fsm:", some 60⟩ [] ⟨true, 1⟩ ⟨rfl, by decide⟩ "s" [] 60).1
    rfl (by decide)

/-- C10: the in-memory backend's `setState` leaves the stored data
mapping of the key unchanged and its `setData` leaves the stored state
unchanged; on a previously unseen key each creates a fresh record
defaulting the untouched component (state to none, data to empty). -/
theorem memory_frame (s : MemStore) (uid : Int) (state : String) (d : Fields) :
    (∀ r, memFind s uid = some r →
      memFind (memSetState s uid state) uid = some ⟨some state, r.data⟩) ∧
    (memFind s uid = none →
      memFind (memSetState s uid state) uid = some ⟨some state, []⟩) ∧
    (∀ r, memFind s uid = some r →
      memFind (memSetData s uid d) uid = some ⟨r.state, d⟩) ∧
    (memFind s uid = none →
      memFind (memSetData s uid d) uid = some ⟨none, d⟩) := by
  refine ⟨?_, ?_, ?_, ?_⟩
  · intro r hr
    simp [memSetState, hr, memFind_memInsert_self]
  · intro hr
    simp [memSetState, hr, memFind_memInsert_self]
  · intro r hr
    simp [memSetData, hr, memFind_memInsert_self]
  · intro hr
    simp [memSetData, hr, memFind_memInsert_self]

theorem memory_frame_witness :
    memFind (memSetState ([((3 : Int), ⟨none, [("a", Value.vnum 1)]⟩)]) 3 "x") 3 =
      some ⟨some "x", [("a", Value.vnum 1)]⟩ :=
  (memory_frame [((3 : Int), ⟨none, [("a", Value.vnum 1)]⟩)] 3 "x" []).1
    ⟨none, [("a", Value.vnum 1)]⟩ (by decide)

end GrammyFSM
